import Mathlib

/-!
Shallow embedding of the trading-signal dashboard service (`src/main.py`)
and verification of its specification.

The embedded operations are:
* `receive_signal` — the `/webhook` POST handler: manual JSON parse,
  pydantic-style validation into a `Signal`, timestamp fill-in, stats
  update, bounded head-insertion into the in-memory `signals` list,
  forward-payload construction, and the try/except around the outbound
  forwarding call.
* `startup_event` — the startup reconciliation: fetch prior history from
  the Google-Apps-Script sink, replace `signals`, recompute stats.

Machine floats of the source are modelled as rationals (`ℚ`); the Python
dicts flowing through the code are modelled by explicit structures and an
explicit `Row` sum for the heterogeneous `signals` list; exceptions are
modelled by `Option`.
-/

namespace Dashboard

/-- Telegram chat id fallback, `DEFAULT_CHAT_ID` in the source. -/
def DEFAULT_CHAT_ID : String := "-1003048841522"

/-- A validated signal, mirroring the pydantic `Signal` model: required
`action`, `ticker`, `price`; numeric levels defaulting to `0.0`; optional
`date`, `time`, `chat_id`, `text` (Python `None` is `Option.none`). -/
structure Signal where
  action : String
  ticker : String
  price : ℚ
  sl : ℚ
  tp1 : ℚ
  tp2 : ℚ
  tp3 : ℚ
  date : Option String
  time : Option String
  chat_id : Option String
  text : Option String
deriving DecidableEq

/-- A numeric literal appearing in the raw JSON body: either an actual
number (pydantic coerces it to `float`) or a value that fails `float`
validation. -/
inductive NumLit where
  | num (q : ℚ)
  | bad (s : String)
deriving DecidableEq

/-- The raw JSON object posted to `/webhook`: every field optional at this
stage, numeric fields possibly non-numeric. -/
structure RawPayload where
  action : Option String := none
  ticker : Option String := none
  price : Option NumLit := none
  sl : Option NumLit := none
  tp1 : Option NumLit := none
  tp2 : Option NumLit := none
  tp3 : Option NumLit := none
  date : Option String := none
  time : Option String := none
  chat_id : Option String := none
  text : Option String := none
deriving DecidableEq

/-- A raw request body: either not decodable as JSON at all, or a JSON
object. -/
inductive RawBody where
  | notJson
  | json (p : RawPayload)
deriving DecidableEq

/-- Read an optional numeric field, substituting the model default when the
field is absent and failing when it is non-numeric. -/
def getNum (o : Option NumLit) (d : ℚ) : Option ℚ :=
  match o with
  | none => some d
  | some (.num q) => some q
  | some (.bad _) => none

/-- Validation as in `Signal(**payload)`: it fails (`none`) when `action`, `ticker`
or `price` is missing or a numeric field is non-numeric. -/
def parseSignal (p : RawPayload) : Option Signal := do
  let action ← p.action
  let ticker ← p.ticker
  let price ← match p.price with | some (.num q) => some q | _ => none
  let sl ← getNum p.sl 0
  let tp1 ← getNum p.tp1 0
  let tp2 ← getNum p.tp2 0
  let tp3 ← getNum p.tp3 0
  pure { action := action, ticker := ticker, price := price, sl := sl,
         tp1 := tp1, tp2 := tp2, tp3 := tp3, date := p.date, time := p.time,
         chat_id := p.chat_id, text := p.text }

/-- Parse the whole body: `json.loads` followed by `Signal(**payload)`;
any raised exception is `none`. -/
def parseBody : RawBody → Option Signal
  | .notJson => none
  | .json p => parseSignal p

/-- One element of the in-memory `signals` list.  The list is heterogeneous
in the source: rows loaded from the sheet at startup are plain dicts (with a
`status` and possibly a `date` key), rows appended by the webhook are
`signal.dict()` dumps, and a malformed sheet payload can put a non-dict
value in the list. -/
inductive Row where
  | ofSignal (s : Signal)
  | sheet (status : Option String) (date : Option String)
  | nonDict
deriving DecidableEq

/-- Lookup `row.get("status")`: `none` models the `AttributeError` raised on a
non-dict row; `some v` is the value `.get` returns (`v = none` for a
missing key — a webhook-inserted signal dict has no `status` key). -/
def Row.getStatus : Row → Option (Option String)
  | .ofSignal _ => some none
  | .sheet st _ => some st
  | .nonDict => none

/-- The `date` entry of a row, when the row is a dict that has one. -/
def Row.dateOf : Row → Option String
  | .ofSignal s => s.date
  | .sheet _ d => d
  | .nonDict => none

/-- The in-memory stats dict. -/
structure Stats where
  total_trades : ℕ
  today_trades : ℕ
  wins : ℕ
  losses : ℕ
  win_rate : ℚ
deriving DecidableEq

/-- Initial value of the stats dict (module top level of the source). -/
def initStats : Stats :=
  { total_trades := 0, today_trades := 0, wins := 0, losses := 0, win_rate := 0 }

/-- The shared mutable state: the stats dict and the `signals` list. -/
structure AppState where
  stats : Stats
  signals : List Row
deriving DecidableEq

/-- State at process start: empty stats, empty history. -/
def initState : AppState := { stats := initStats, signals := [] }

/-- Model of `sum(1 for s in signals if s.get("status") == t)`: the generator
iterates left to right and raises (`none`) at the first non-dict row. -/
def countStatus (t : String) : List Row → Option ℕ
  | [] => some 0
  | r :: rs =>
    match r.getStatus with
    | none => none
    | some st => (countStatus t rs).map (fun n => if st = some t then n + 1 else n)

/-- The decoded body of the startup GET to the sink. -/
inductive GasBody where
  | notJson
  | notObj
  | obj (status : Option String) (data : List Row)
deriving DecidableEq

/-- Outcome of `requests.get(GAS_URL)` at startup. -/
inductive GasResponse where
  | netError
  | http (code : ℕ) (body : GasBody)
deriving DecidableEq

/-- The startup reconciliation (`startup_event` in the source).  The whole
body is inside `try/except`, so every raised exception leaves the state as
it is at that point; `signals` is assigned before the two `sum(...)`
recomputations, and the stats keys are assigned only after both sums
succeed.  `today_trades` is never assigned here. -/
def startup_event (st : AppState) (resp : GasResponse) : AppState :=
  match resp with
  | .netError => st
  | .http code body =>
    if code = 200 then
      match body with
      | .notJson => st
      | .notObj => st
      | .obj status data =>
        if status = some "success" then
          let st1 : AppState := { st with signals := data }
          match countStatus "WIN" data, countStatus "LOSS" data with
          | some wins, some losses =>
            let total := data.length
            { st1 with stats :=
              { st1.stats with
                total_trades := total,
                wins := wins,
                losses := losses,
                win_rate := if 0 < total then (wins : ℚ) / (total : ℚ) * 100 else 0 } }
          | _, _ => st1
        else st
    else st

/-- The wall clock at request time: `now.strftime("%Y-%m-%d")` and
`now.strftime("%H:%M:%S")`. -/
structure Now where
  date : String
  time : String
deriving DecidableEq

/-- Model of `if not field: field = default` on an optional string: Python treats
both `None` and `""` as falsy. -/
def fillIfBlank (o : Option String) (d : String) : Option String :=
  match o with
  | none => some d
  | some s => if s = "" then some d else some s

/-- Resolve an optional string to a non-optional one the same way
(`forward_data.get(k)` falsy → replace with the default). -/
def resolveOr (o : Option String) (d : String) : String :=
  match o with
  | none => d
  | some s => if s = "" then d else s

/-- Membership test `pat in s` for strings: `splitOn` yields more than one chunk exactly
when the pattern occurs. -/
def hasSub (s pat : String) : Bool := (s.splitOn pat).length != 1

/-- A rendering of a Python float, as interpolated by the f-string (an
integral float prints as `"50000.0"`). -/
def renderNum (q : ℚ) : String :=
  if q.den = 1 then toString q.num ++ ".0" else toString q.num ++ "/" ++ toString q.den

/-- The directional marker: `"üü¢" if "buy" in signal.action.lower() else "üî¥"`. -/
def emoji (a : String) : String := if hasSub a.toLower "buy" then "üü¢" else "üî¥"

/-- The synthesized Telegram message built when `text` is absent. -/
def buildText (s : Signal) : String :=
  emoji s.action ++ " <b>SIGNAL RECEIVED</b>\n" ++
  "<b>Ticker:</b> " ++ s.ticker ++ "\n" ++
  "<b>Action:</b> " ++ s.action ++ "\n" ++
  "<b>Price:</b> " ++ renderNum s.price ++ "\n" ++
  "<b>TP1:</b> " ++ renderNum s.tp1 ++ " | <b>TP2:</b> " ++ renderNum s.tp2 ++
  " | <b>TP3:</b> " ++ renderNum s.tp3 ++ "\n" ++
  "<b>SL:</b> " ++ renderNum s.sl

/-- The payload posted to the sink (`forward_data`): the signal dict with a
resolved `chat_id` and a resolved `text`. -/
structure ForwardData where
  action : String
  ticker : String
  price : ℚ
  sl : ℚ
  tp1 : ℚ
  tp2 : ℚ
  tp3 : ℚ
  date : Option String
  time : Option String
  chat_id : String
  text : String
deriving DecidableEq

/-- Build `forward_data` from the (timestamp-filled) signal. -/
def mkForward (s : Signal) : ForwardData :=
  { action := s.action, ticker := s.ticker, price := s.price, sl := s.sl,
    tp1 := s.tp1, tp2 := s.tp2, tp3 := s.tp3, date := s.date, time := s.time,
    chat_id := resolveOr s.chat_id DEFAULT_CHAT_ID,
    text := resolveOr s.text (buildText s) }

/-- Outcome of the `requests.post(GAS_URL, json=forward_data)` call. -/
inductive FwdOutcome where
  | ok
  | raised (msg : String)
deriving DecidableEq

/-- An HTTP response of the webhook: status code, plus the
`{status, message}` JSON payload on the success path. -/
structure HttpResp where
  status : ℕ
  payload : Option (String × String)
deriving DecidableEq

/-- The success response `{"status": "success", "message": "Signal received"}`. -/
def successResp : HttpResp := ⟨200, some ("success", "Signal received")⟩

/-- Model of `signals.insert(0, row)` followed by `if len(signals) > 50: signals.pop()`. -/
def pushSignal (signals : List Row) (r : Row) : List Row :=
  let l := r :: signals
  if l.length > 50 then l.dropLast else l

/-- Step 3 of the handler: assign the timestamp fields when absent. -/
def fillSig (s : Signal) (now : Now) : Signal :=
  { s with date := fillIfBlank s.date now.date, time := fillIfBlank s.time now.time }

/-- Step 4 of the handler: `stats["total_trades"] += 1` and
`stats["today_trades"] += 1` — the only stats keys the handler writes. -/
def bumpStats (st : Stats) : Stats :=
  { st with total_trades := st.total_trades + 1, today_trades := st.today_trades + 1 }

/-- The `/webhook` handler `receive_signal`: parse and validate (any
exception → 422 with nothing mutated), fill missing timestamps, bump
`total_trades` and `today_trades`, head-insert into `signals` with
eviction, build `forward_data`, and post it inside `try/except` — the
forwarding outcome is logged and swallowed in both cases.  Returns the
response, the new state, and the payload handed to the sink (if any). -/
def receive_signal (st : AppState) (body : RawBody) (now : Now) (fwd : FwdOutcome) :
    HttpResp × AppState × Option ForwardData :=
  match parseBody body with
  | none => (⟨422, none⟩, st, none)
  | some sig0 =>
    let sig : Signal := fillSig sig0 now
    let stats' : Stats := bumpStats st.stats
    let signals' := pushSignal st.signals (Row.ofSignal sig)
    let fd := mkForward sig
    match fwd with
    | .ok => (successResp, { stats := stats', signals := signals' }, some fd)
    | .raised _ => (successResp, { stats := stats', signals := signals' }, some fd)

/-- One webhook request: body, wall clock, forwarding outcome. -/
structure IngestEvent where
  body : RawBody
  now : Now
  fwd : FwdOutcome
deriving DecidableEq

/-- The state after handling one request. -/
def stepEvent (st : AppState) (e : IngestEvent) : AppState :=
  (receive_signal st e.body e.now e.fwd).2.1

/-- The state after handling a sequence of requests. -/
def runEvents (st : AppState) (evs : List IngestEvent) : AppState :=
  evs.foldl stepEvent st

/-- The row a request inserts, when its body parses. -/
def rowOf (e : IngestEvent) : Option Row :=
  (parseBody e.body).map fun s => Row.ofSignal (fillSig s e.now)

/-- A request whose body parses into a signal with an entry action. -/
def isEntrySuccess (e : IngestEvent) : Bool :=
  match parseBody e.body with
  | none => false
  | some sig => sig.action == "buy" || sig.action == "sell"

/-- States the process can reach: the initial state, the state right after
the one-shot startup reconciliation, and anything reachable from those by
webhook requests. -/
inductive Reachable : AppState → Prop where
  | init : Reachable initState
  | startup (resp : GasResponse) : Reachable (startup_event initState resp)
  | step (st : AppState) (e : IngestEvent) : Reachable st → Reachable (stepEvent st e)

/-- Modelled from the spec (not present in the code): the live
recomputation of the trades of today — the number of stored rows whose date
equals the current calendar date at read time. -/
def specTodayRecount (signals : List Row) (today : String) : ℕ :=
  (signals.filter fun r => r.dateOf = some today).length

/-- Substring containment, used to state that the synthesized message holds
a field verbatim. -/
def ContainsStr (t sub : String) : Prop := ∃ p q, t = p ++ (sub ++ q)

/-! ### Concrete inputs used by scenario claims -/

/-- The scenario entry request `{"action":"buy","ticker":"BTCUSD","price":50000}`. -/
def buyBody : RawBody :=
  .json { action := some "buy", ticker := some "BTCUSD", price := some (.num 50000) }

/-- The scenario outcome request `{"action":"win","ticker":"BTCUSD","price":50000}`. -/
def winBody : RawBody :=
  .json { action := some "win", ticker := some "BTCUSD", price := some (.num 50000) }

/-- A fixed wall clock for the scenarios. -/
def now0 : Now := ⟨"2026-10-12", "12:00:00"⟩

/-- The scenario entry request as an event. -/
def buyEvent : IngestEvent := ⟨buyBody, now0, .ok⟩

/-- The scenario outcome request as an event. -/
def winEvent : IngestEvent := ⟨winBody, now0, .ok⟩

/-- The signal the scenario entry request validates to. -/
def buySig : Signal :=
  { action := "buy", ticker := "BTCUSD", price := 50000, sl := 0, tp1 := 0, tp2 := 0,
    tp3 := 0, date := none, time := none, chat_id := none, text := none }

/-- A malformed scenario body: the required `ticker` is missing. -/
def noTickerBody : RawBody :=
  .json { action := some "buy", price := some (.num 50000) }

/-- An entry request carrying an old caller-supplied date. -/
def lateDateBody : RawBody :=
  .json { action := some "buy", ticker := some "BTCUSD", price := some (.num 1),
          date := some "1999-01-01" }

/-- The old-dated entry request as an event arriving on 2026-10-12. -/
def lateDateEvent : IngestEvent := ⟨lateDateBody, ⟨"2026-10-12", "09:00:00"⟩, .ok⟩

/-- The signal the old-dated request validates to. -/
def lateSig : Signal :=
  { action := "buy", ticker := "BTCUSD", price := 1, sl := 0, tp1 := 0, tp2 := 0,
    tp3 := 0, date := some "1999-01-01", time := none, chat_id := none, text := none }

/-- A startup response whose rows carry one win, one loss and one open
trade. -/
def c4resp : GasResponse :=
  .http 200 (.obj (some "success")
    [.sheet (some "WIN") none, .sheet (some "LOSS") none, .sheet none none])

/-- A startup response with HTTP success and `status` success whose data
list holds a non-dict row. -/
def badRowsResp : GasResponse := .http 200 (.obj (some "success") [.nonDict])

/-- Startup responses the loader rejects before it assigns `signals`: a
network error, a non-200 HTTP status, an undecodable or non-object JSON
payload, or a `status` field different from success. -/
def isEarlyFailure : GasResponse → Bool
  | .netError => true
  | .http code body =>
    if code = 200 then
      match body with
      | .notJson => true
      | .notObj => true
      | .obj status _ => status != some "success"
    else true

/-- The i-th of a family of pairwise-distinct valid entry requests. -/
def mkTestEvent (i : ℕ) : IngestEvent :=
  ⟨.json { action := some "buy", ticker := some (toString i), price := some (.num 1) },
   ⟨"2026-10-12", "00:00:00"⟩, .ok⟩

/-- Capacity-plus-one distinct entry requests. -/
def testEvents : List IngestEvent := (List.range 51).map mkTestEvent

/-- The row the i-th test request inserts. -/
def mkTestRow (i : ℕ) : Row :=
  .ofSignal { action := "buy", ticker := toString i, price := 1, sl := 0, tp1 := 0,
              tp2 := 0, tp3 := 0, date := some "2026-10-12", time := some "00:00:00",
              chat_id := none, text := none }

/-- The rows of the test requests after the first. -/
def testRest : List Row := (List.range 50).map (fun i => mkTestRow (i + 1))

/-! ### Unfolding lemmas for the handler -/

/-- When parsing or validation raises, the handler answers 422 and touches
nothing. -/
theorem receive_signal_of_parse_fail (st : AppState) (body : RawBody) (now : Now)
    (fwd : FwdOutcome) (h : parseBody body = none) :
    receive_signal st body now fwd = (⟨422, none⟩, st, none) := by
  simp [receive_signal, h]

/-- When validation succeeds, the handler bumps the two trade counters,
head-inserts the filled signal, forwards the resolved payload, and answers
success — independently of the forwarding outcome. -/
theorem receive_signal_of_parse_ok (st : AppState) (body : RawBody) (now : Now)
    (fwd : FwdOutcome) (sig : Signal) (h : parseBody body = some sig) :
    receive_signal st body now fwd =
      (successResp,
       { stats := bumpStats st.stats,
         signals := pushSignal st.signals (Row.ofSignal (fillSig sig now)) },
       some (mkForward (fillSig sig now))) := by
  cases fwd <;> simp [receive_signal, h]

/-- State form of `receive_signal_of_parse_fail`. -/
theorem stepEvent_of_parse_fail (st : AppState) (e : IngestEvent)
    (h : parseBody e.body = none) : stepEvent st e = st := by
  simp [stepEvent, receive_signal_of_parse_fail st e.body e.now e.fwd h]

/-- State form of `receive_signal_of_parse_ok`. -/
theorem stepEvent_of_parse_ok (st : AppState) (e : IngestEvent) (sig : Signal)
    (h : parseBody e.body = some sig) :
    stepEvent st e =
      { stats := bumpStats st.stats,
        signals := pushSignal st.signals (Row.ofSignal (fillSig sig e.now)) } := by
  simp [stepEvent, receive_signal_of_parse_ok st e.body e.now e.fwd sig h]

/-- A webhook request never writes `wins`, `losses` or `win_rate`. -/
theorem stepEvent_outcome_frame (st : AppState) (e : IngestEvent) :
    (stepEvent st e).stats.wins = st.stats.wins ∧
    (stepEvent st e).stats.losses = st.stats.losses ∧
    (stepEvent st e).stats.win_rate = st.stats.win_rate := by
  cases h : parseBody e.body with
  | none => simp [stepEvent_of_parse_fail st e h]
  | some sig => simp [stepEvent_of_parse_ok st e sig h, bumpStats]

/-! ### History-store lemmas -/

/-- Below capacity, the insert-then-evict sequence is a bounded head
insertion. -/
theorem pushSignal_eq_take (l : List Row) (r : Row) (h : l.length ≤ 50) :
    pushSignal l r = (r :: l).take 50 := by
  simp only [pushSignal]
  split
  · next h51 =>
    rw [List.dropLast_eq_take]
    congr 1
    simp only [List.length_cons] at h51 ⊢
    omega
  · next h51 =>
    rw [List.take_of_length_le]
    simp only [List.length_cons] at h51 ⊢
    omega

/-- Truncating the right part of an append before truncating the whole
append changes nothing. -/
theorem take_append_take {α : Type} (n : ℕ) (a b : List α) :
    (a ++ b.take n).take n = (a ++ b).take n := by
  rw [List.take_append_eq_append_take, List.take_append_eq_append_take, List.take_take]
  congr 1
  rw [Nat.min_eq_left (Nat.sub_le n a.length)]

/-- Unfold one request from a run. -/
theorem runEvents_cons (st : AppState) (e : IngestEvent) (evs : List IngestEvent) :
    runEvents st (e :: evs) = runEvents (stepEvent st e) evs := rfl

/-- The history after a run is the reversed list of inserted rows in front
of the old history, truncated to the capacity. -/
theorem runEvents_signals (evs : List IngestEvent) (st : AppState)
    (h : st.signals.length ≤ 50) :
    (runEvents st evs).signals = ((evs.filterMap rowOf).reverse ++ st.signals).take 50 := by
  induction evs generalizing st with
  | nil =>
    simp only [runEvents, List.foldl_nil, List.filterMap_nil, List.reverse_nil,
      List.nil_append]
    exact (List.take_of_length_le h).symm
  | cons e evs ih =>
    rw [runEvents_cons]
    cases hp : parseBody e.body with
    | none =>
      rw [stepEvent_of_parse_fail st e hp, ih st h]
      congr 2
      simp [List.filterMap_cons, rowOf, hp]
    | some sig =>
      rw [stepEvent_of_parse_ok st e sig hp]
      have hlen : (pushSignal st.signals (Row.ofSignal (fillSig sig e.now))).length ≤ 50 := by
        rw [pushSignal_eq_take st.signals _ h]
        exact List.length_take_le 50 _
      rw [ih _ hlen]
      simp only [pushSignal_eq_take st.signals _ h]
      rw [take_append_take]
      congr 1
      simp only [List.filterMap_cons, rowOf, hp, Option.map_some']
      rw [List.reverse_cons, List.append_assoc, List.singleton_append]

/-- The run from the empty store never exceeds the capacity. -/
theorem runEvents_capacity (evs : List IngestEvent) :
    (runEvents initState evs).signals.length ≤ 50 := by
  rw [runEvents_signals evs initState (by simp [initState])]
  exact List.length_take_le 50 _

/-! ### Stats lemmas -/

/-- The win and loss scans count at most one per loaded row. -/
theorem countStatus_le_length (t : String) (l : List Row) (n : ℕ)
    (h : countStatus t l = some n) : n ≤ l.length := by
  induction l generalizing n with
  | nil =>
    simp only [countStatus, Option.some.injEq] at h
    omega
  | cons r rs ih =>
    unfold countStatus at h
    cases hg : r.getStatus with
    | none => rw [hg] at h; exact absurd h (by simp)
    | some st =>
      rw [hg] at h
      rw [Option.map_eq_some'] at h
      obtain ⟨m, hm, hn⟩ := h
      have hle := ih m hm
      simp only [List.length_cons]
      split at hn <;> omega

/-- A run of valid webhook requests adds one to `total_trades` per request. -/
theorem runEvents_total_trades (evs : List IngestEvent) (st : AppState)
    (h : ∀ e ∈ evs, (parseBody e.body).isSome) :
    (runEvents st evs).stats.total_trades = st.stats.total_trades + evs.length := by
  induction evs generalizing st with
  | nil => simp [runEvents]
  | cons e evs ih =>
    rw [runEvents_cons]
    obtain ⟨sig, hsig⟩ := Option.isSome_iff_exists.mp (h e (List.mem_cons_self e evs))
    rw [ih (stepEvent st e) (fun x hx => h x (List.mem_cons_of_mem e hx))]
    rw [stepEvent_of_parse_ok st e sig hsig]
    simp only [bumpStats, List.length_cons]
    omega

/-- A request that validates as an entry signal validates. -/
theorem isSome_of_entry (e : IngestEvent) (h : isEntrySuccess e = true) :
    (parseBody e.body).isSome := by
  unfold isEntrySuccess at h
  cases hp : parseBody e.body with
  | none => rw [hp] at h; exact absurd h (by simp)
  | some sig => simp

/-- Whatever the sink answers at startup, the resulting `win_rate` is in
the unit-percent range and is zero when no outcome was counted. -/
theorem winRate_startup (resp : GasResponse) :
    0 ≤ (startup_event initState resp).stats.win_rate ∧
    (startup_event initState resp).stats.win_rate ≤ 100 ∧
    ((startup_event initState resp).stats.wins + (startup_event initState resp).stats.losses = 0 →
      (startup_event initState resp).stats.win_rate = 0) := by
  cases resp with
  | netError => simp [startup_event, initState, initStats]
  | http code body =>
    by_cases hc : code = 200
    · subst hc
      cases body with
      | notJson => simp [startup_event, initState, initStats]
      | notObj => simp [startup_event, initState, initStats]
      | obj status data =>
        by_cases hs : status = some "success"
        · cases hw : countStatus "WIN" data with
          | none => simp [startup_event, hs, hw, initState, initStats]
          | some wins =>
            cases hl : countStatus "LOSS" data with
            | none => simp [startup_event, hs, hw, hl, initState, initStats]
            | some losses =>
              have hwle : wins ≤ data.length := countStatus_le_length "WIN" data wins hw
              simp only [startup_event, hs, if_true, hw, hl, initState, initStats]
              by_cases hlen : 0 < data.length
              · have hpos : (0 : ℚ) < (data.length : ℚ) := by exact_mod_cast hlen
                have hnn : (0 : ℚ) ≤ (wins : ℚ) := by positivity
                refine ⟨?_, ?_, ?_⟩
                · simp only [hlen, if_true]
                  positivity
                · simp only [hlen, if_true]
                  have h1 : (wins : ℚ) / (data.length : ℚ) ≤ 1 :=
                    div_le_one_of_le₀ (by exact_mod_cast hwle) (le_of_lt hpos)
                  calc (wins : ℚ) / (data.length : ℚ) * 100
                      ≤ 1 * 100 := by
                        exact mul_le_mul_of_nonneg_right h1 (by norm_num)
                    _ = 100 := by norm_num
                · intro hz
                  have hw0 : wins = 0 := by omega
                  simp [hlen, hw0]
              · simp [hlen]
        · simp [startup_event, hs, initState, initStats]
    · simp [startup_event, hc, initState, initStats]

/-! ### String-containment lemmas for the synthesized message -/

/-- Containment is stable under prepending. -/
theorem containsStr_appL (a : String) {t s : String} (h : ContainsStr t s) :
    ContainsStr (a ++ t) s := by
  obtain ⟨p, q, rfl⟩ := h
  exact ⟨a ++ p, q, by rw [String.append_assoc]⟩

/-- A string sits inside an append whose middle part it is. -/
theorem containsStr_at (a s b : String) : ContainsStr (a ++ (s ++ b)) s := ⟨a, b, rfl⟩

/-- A string sits at the end of an append. -/
theorem containsStr_tail (a s : String) : ContainsStr (a ++ s) s :=
  ⟨a, "", by rw [String.append_empty]⟩

/-- The synthesized message contains the ticker verbatim. -/
theorem buildText_has_ticker (s : Signal) : ContainsStr (buildText s) s.ticker := by
  simp only [buildText, String.append_assoc]
  repeat first
  | exact containsStr_at _ _ _
  | exact containsStr_tail _ _
  | apply containsStr_appL

/-- The synthesized message contains the action verbatim. -/
theorem buildText_has_action (s : Signal) : ContainsStr (buildText s) s.action := by
  simp only [buildText, String.append_assoc]
  repeat first
  | exact containsStr_at _ _ _
  | exact containsStr_tail _ _
  | apply containsStr_appL

/-- The synthesized message contains the rendered price verbatim. -/
theorem buildText_has_price (s : Signal) : ContainsStr (buildText s) (renderNum s.price) := by
  simp only [buildText, String.append_assoc]
  repeat first
  | exact containsStr_at _ _ _
  | exact containsStr_tail _ _
  | apply containsStr_appL

/-- The synthesized message contains the first take-profit verbatim. -/
theorem buildText_has_tp1 (s : Signal) : ContainsStr (buildText s) (renderNum s.tp1) := by
  simp only [buildText, String.append_assoc]
  repeat first
  | exact containsStr_at _ _ _
  | exact containsStr_tail _ _
  | apply containsStr_appL

/-- The synthesized message contains the second take-profit verbatim. -/
theorem buildText_has_tp2 (s : Signal) : ContainsStr (buildText s) (renderNum s.tp2) := by
  simp only [buildText, String.append_assoc]
  repeat first
  | exact containsStr_at _ _ _
  | exact containsStr_tail _ _
  | apply containsStr_appL

/-- The synthesized message contains the third take-profit verbatim. -/
theorem buildText_has_tp3 (s : Signal) : ContainsStr (buildText s) (renderNum s.tp3) := by
  simp only [buildText, String.append_assoc]
  repeat first
  | exact containsStr_at _ _ _
  | exact containsStr_tail _ _
  | apply containsStr_appL

/-- The synthesized message contains the rendered stop-loss verbatim. -/
theorem buildText_has_sl (s : Signal) : ContainsStr (buildText s) (renderNum s.sl) := by
  simp only [buildText, String.append_assoc]
  repeat first
  | exact containsStr_at _ _ _
  | exact containsStr_tail _ _
  | apply containsStr_appL

/-! ### The claims -/

/-- C1, counterexample: ingesting the outcome body
`{"action":"win","ticker":"BTCUSD","price":50000}` right after the scenario
entry leaves `wins` at 0 and `win_rate` at 0.0 and inserts a new history
row, contradicting the claimed `wins` = 1, `win_rate` = 100.0 and unchanged
history size. -/
theorem C1_counterexample :
    (stepEvent (stepEvent initState buyEvent) winEvent).stats.wins = 0 ∧
    (stepEvent (stepEvent initState buyEvent) winEvent).stats.win_rate = 0 ∧
    (stepEvent (stepEvent initState buyEvent) winEvent).signals.length =
      (stepEvent initState buyEvent).signals.length + 1 := by
  refine ⟨by decide, ?_, by decide⟩
  rw [(stepEvent_outcome_frame (stepEvent initState buyEvent) winEvent).2.2,
      (stepEvent_outcome_frame initState buyEvent).2.2]
  rfl

/-- C1, amended: ingesting the outcome body
`{"action":"win","ticker":"BTCUSD","price":50000}` immediately after one
entry signal leaves `wins`, `losses` and `win_rate` at their initial zero
values, increments `total_trades`, and inserts a new row into the history
(size grows by one): the handler treats the outcome signal exactly like an
entry. -/
theorem C1_theorem (e : IngestEvent) (sig : Signal) (hp : parseBody e.body = some sig)
    (_hentry : sig.action = "buy" ∨ sig.action = "sell") (now2 : Now) (f : FwdOutcome) :
    (receive_signal (stepEvent initState e) winBody now2 f).2.1.stats.wins = 0 ∧
    (receive_signal (stepEvent initState e) winBody now2 f).2.1.stats.losses = 0 ∧
    (receive_signal (stepEvent initState e) winBody now2 f).2.1.stats.win_rate = 0 ∧
    (receive_signal (stepEvent initState e) winBody now2 f).2.1.stats.total_trades =
      (stepEvent initState e).stats.total_trades + 1 ∧
    (receive_signal (stepEvent initState e) winBody now2 f).2.1.signals.length =
      (stepEvent initState e).signals.length + 1 := by
  have hw : parseBody winBody = some
      { action := "win", ticker := "BTCUSD", price := 50000, sl := 0, tp1 := 0, tp2 := 0,
        tp3 := 0, date := none, time := none, chat_id := none, text := none } := rfl
  rw [receive_signal_of_parse_ok _ _ _ _ _ hw, stepEvent_of_parse_ok initState e sig hp]
  simp [bumpStats, initState, initStats, pushSignal]

/-- C1, witness: the amended statement at the concrete scenario inputs. -/
theorem C1_witness :
    (receive_signal (stepEvent initState buyEvent) winBody now0 .ok).2.1.stats.wins = 0 ∧
    (receive_signal (stepEvent initState buyEvent) winBody now0 .ok).2.1.stats.losses = 0 ∧
    (receive_signal (stepEvent initState buyEvent) winBody now0 .ok).2.1.stats.win_rate = 0 ∧
    (receive_signal (stepEvent initState buyEvent) winBody now0 .ok).2.1.stats.total_trades =
      (stepEvent initState buyEvent).stats.total_trades + 1 ∧
    (receive_signal (stepEvent initState buyEvent) winBody now0 .ok).2.1.signals.length =
      (stepEvent initState buyEvent).signals.length + 1 :=
  C1_theorem buyEvent buySig rfl (Or.inl rfl) now0 .ok

/-- C2: a body that is not valid JSON or fails `Signal` validation makes
the handler answer HTTP 422, leave the whole state (stats dict and history
list) untouched, and attempt no forwarding. -/
theorem C2_theorem (st : AppState) (body : RawBody) (now : Now) (f : FwdOutcome)
    (h : parseBody body = none) :
    (receive_signal st body now f).1.status = 422 ∧
    (receive_signal st body now f).2.1 = st ∧
    (receive_signal st body now f).2.2 = none := by
  rw [receive_signal_of_parse_fail st body now f h]
  exact ⟨rfl, rfl, rfl⟩

/-- C2, witness: the missing-ticker scenario body. -/
theorem C2_witness :
    (receive_signal initState noTickerBody now0 .ok).1.status = 422 ∧
    (receive_signal initState noTickerBody now0 .ok).2.1 = initState ∧
    (receive_signal initState noTickerBody now0 .ok).2.2 = none :=
  C2_theorem initState noTickerBody now0 .ok rfl

/-- C3: after any request sequence from the empty store the history holds
at most 50 rows, and for a sequence inserting 51 rows the first of which
does not recur, the final history is exactly the last 50 rows newest-first:
the first-inserted row is gone and the last-inserted row is the head. -/
theorem C3_theorem :
    (∀ evs : List IngestEvent, (runEvents initState evs).signals.length ≤ 50) ∧
    (∀ (evs : List IngestEvent) (r1 : Row) (rest : List Row),
      evs.filterMap rowOf = r1 :: rest → rest.length = 50 → r1 ∉ rest →
      (runEvents initState evs).signals = rest.reverse ∧
      r1 ∉ (runEvents initState evs).signals ∧
      (runEvents initState evs).signals.head? = rest.getLast?) := by
  refine ⟨runEvents_capacity, ?_⟩
  intro evs r1 rest hfm hlen hmem
  have hs := runEvents_signals evs initState (by simp [initState])
  rw [hfm] at hs
  have hnil : initState.signals = [] := rfl
  rw [hnil, List.append_nil, List.reverse_cons] at hs
  have hrl : rest.reverse.length = 50 := by rw [List.length_reverse]; exact hlen
  have htake : (rest.reverse ++ [r1]).take 50 = rest.reverse := by
    rw [← hrl, List.take_left]
  rw [htake] at hs
  refine ⟨hs, ?_, ?_⟩
  · rw [hs, List.mem_reverse]
    exact hmem
  · rw [hs, List.head?_reverse]

/-- C3, witness: 51 distinct entry requests from the empty store. -/
theorem C3_witness :
    (runEvents initState testEvents).signals.length ≤ 50 ∧
    ((runEvents initState testEvents).signals = testRest.reverse ∧
      mkTestRow 0 ∉ (runEvents initState testEvents).signals ∧
      (runEvents initState testEvents).signals.head? = testRest.getLast?) :=
  ⟨C3_theorem.1 testEvents,
   C3_theorem.2 testEvents (mkTestRow 0) testRest (by decide) (by decide) (by decide)⟩

/-- C4, counterexample: a reachable state (loaded at startup from one WIN
row, one LOSS row and one open row) has `win_rate` = 100/3, while
`wins / (wins + losses) * 100` = 50 — the code divides by the loaded row
count, not by `wins + losses`. -/
theorem C4_counterexample :
    Reachable (startup_event initState c4resp) ∧
    (startup_event initState c4resp).stats.wins = 1 ∧
    (startup_event initState c4resp).stats.losses = 1 ∧
    (startup_event initState c4resp).stats.win_rate ≠
      ((startup_event initState c4resp).stats.wins : ℚ) /
        (((startup_event initState c4resp).stats.wins : ℚ) +
          ((startup_event initState c4resp).stats.losses : ℚ)) * 100 := by
  refine ⟨Reachable.startup c4resp, by decide, by decide, ?_⟩
  simp [c4resp, startup_event, countStatus, Row.getStatus, initState, initStats]
  norm_num

/-- C4, amended: in every reachable state `win_rate` lies in [0, 100] and
is exactly 0.0 when `wins + losses` = 0; but the rate set at startup is
`wins / (loaded row count) * 100`, not `wins / (wins + losses) * 100`, and
webhook requests never update it. -/
theorem C4_theorem (st : AppState) (h : Reachable st) :
    0 ≤ st.stats.win_rate ∧ st.stats.win_rate ≤ 100 ∧
    (st.stats.wins + st.stats.losses = 0 → st.stats.win_rate = 0) := by
  induction h with
  | init =>
    refine ⟨?_, ?_, fun _ => rfl⟩ <;> norm_num [initState, initStats]
  | startup resp => exact winRate_startup resp
  | step st e hst ih =>
    obtain ⟨h1, h2, h3⟩ := ih
    obtain ⟨hw, hl, hr⟩ := stepEvent_outcome_frame st e
    rw [hw, hl, hr]
    exact ⟨h1, h2, h3⟩

/-- C4, witness: the amended invariant at the initial state. -/
theorem C4_witness :
    0 ≤ initState.stats.win_rate ∧ initState.stats.win_rate ≤ 100 ∧
    (initState.stats.wins + initState.stats.losses = 0 → initState.stats.win_rate = 0) :=
  C4_theorem initState Reachable.init

/-- C5: after any sequence of N successfully ingested entry signals from
the initial empty state, `total_trades` equals N, eviction or not. -/
theorem C5_theorem (evs : List IngestEvent) (h : ∀ e ∈ evs, isEntrySuccess e = true) :
    (runEvents initState evs).stats.total_trades = evs.length := by
  rw [runEvents_total_trades evs initState (fun e he => isSome_of_entry e (h e he))]
  simp [initState, initStats]

/-- C5, witness: one valid entry request. -/
theorem C5_witness :
    (runEvents initState [buyEvent]).stats.total_trades = [buyEvent].length :=
  C5_theorem [buyEvent] (by decide)

/-- C6, counterexample: a reachable state where the reported
`today_trades` is 1 but the live recount of rows dated with the current
date (2026-10-12) is 0 — the stored counter counts every ingested signal,
even one dated 1999-01-01, and is never recomputed. -/
theorem C6_counterexample :
    Reachable (stepEvent initState lateDateEvent) ∧
    (stepEvent initState lateDateEvent).stats.today_trades = 1 ∧
    specTodayRecount (stepEvent initState lateDateEvent).signals "2026-10-12" = 0 :=
  ⟨Reachable.step initState lateDateEvent Reachable.init, by decide, by decide⟩

/-- C6, amended: `today_trades` is a stored counter that every successful
ingestion increments by one regardless of the date carried by the signal
or of the current date; it is not recomputed from the history at read
time. -/
theorem C6_theorem (st : AppState) (body : RawBody) (now : Now) (f : FwdOutcome)
    (sig : Signal) (h : parseBody body = some sig) :
    (receive_signal st body now f).2.1.stats.today_trades = st.stats.today_trades + 1 := by
  rw [receive_signal_of_parse_ok st body now f sig h]
  rfl

/-- C6, witness: the amended statement at the old-dated request. -/
theorem C6_witness :
    (receive_signal initState lateDateBody ⟨"2026-10-12", "09:00:00"⟩ .ok).2.1.stats.today_trades =
      initState.stats.today_trades + 1 :=
  C6_theorem initState lateDateBody ⟨"2026-10-12", "09:00:00"⟩ .ok lateSig rfl

/-- C7, counterexample: a startup response with HTTP 200 and status
success whose data list holds a non-dict row makes the stats recomputation
raise after `signals` has already been replaced: the failing run leaves the
history non-empty (the claim says both structures stay empty). -/
theorem C7_counterexample :
    (startup_event initState badRowsResp).signals ≠ [] ∧
    (startup_event initState badRowsResp).signals = [Row.nonDict] ∧
    (startup_event initState badRowsResp).stats = initStats := by
  refine ⟨by decide, by decide, rfl⟩

/-- C7, amended: a startup failure detected before the history assignment
— network error, non-200 status, undecodable or non-object payload, or a
status field that is not success — leaves the whole state at its empty
initial value (and the loader never propagates: it is total).  A malformed
row inside an accepted data list, by contrast, is detected only after
`signals` has been replaced. -/
theorem C7_theorem (resp : GasResponse) (h : isEarlyFailure resp = true) :
    startup_event initState resp = initState := by
  cases resp with
  | netError => rfl
  | http code body =>
    by_cases hc : code = 200
    · subst hc
      cases body with
      | notJson => rfl
      | notObj => rfl
      | obj status data =>
        have hs : ¬ status = some "success" := by simpa [isEarlyFailure] using h
        simp [startup_event, hs]
    · simp [startup_event, hc]

/-- C7, witness: the network-error response. -/
theorem C7_witness : startup_event initState GasResponse.netError = initState :=
  C7_theorem GasResponse.netError rfl

/-- C8: when the body validates, a raising forwarding call changes neither
the success response `{"status":"success","message":"Signal received"}`
nor the state mutations nor the payload handed to the sink — the failure
is swallowed inside the handler. -/
theorem C8_theorem (st : AppState) (body : RawBody) (now : Now) (sig : Signal)
    (h : parseBody body = some sig) (msg : String) :
    (receive_signal st body now (.raised msg)).1 = successResp ∧
    (receive_signal st body now (.raised msg)).2.1 = (receive_signal st body now .ok).2.1 ∧
    (receive_signal st body now (.raised msg)).2.2 = (receive_signal st body now .ok).2.2 := by
  rw [receive_signal_of_parse_ok st body now (.raised msg) sig h,
      receive_signal_of_parse_ok st body now .ok sig h]
  exact ⟨rfl, rfl, rfl⟩

/-- C8, witness: the scenario entry body with a failing forwarding call. -/
theorem C8_witness :
    (receive_signal initState buyBody now0 (.raised "connection error")).1 = successResp ∧
    (receive_signal initState buyBody now0 (.raised "connection error")).2.1 =
      (receive_signal initState buyBody now0 .ok).2.1 ∧
    (receive_signal initState buyBody now0 (.raised "connection error")).2.2 =
      (receive_signal initState buyBody now0 .ok).2.2 :=
  C8_theorem initState buyBody now0 buySig rfl "connection error"

/-- C9: an entry signal ingested with `chat_id` and `text` omitted is
forwarded with the configured default chat id, and its synthesized text
contains the ticker, the action, and the rendered price, tp1, tp2, tp3 and
stop-loss verbatim. -/
theorem C9_theorem (st : AppState) (body : RawBody) (now : Now) (f : FwdOutcome)
    (sig : Signal) (hp : parseBody body = some sig) (hchat : sig.chat_id = none)
    (htext : sig.text = none) (_hentry : sig.action = "buy" ∨ sig.action = "sell") :
    ∃ fd : ForwardData, (receive_signal st body now f).2.2 = some fd ∧
      fd.chat_id = DEFAULT_CHAT_ID ∧
      ContainsStr fd.text sig.ticker ∧
      ContainsStr fd.text sig.action ∧
      ContainsStr fd.text (renderNum sig.price) ∧
      ContainsStr fd.text (renderNum sig.tp1) ∧
      ContainsStr fd.text (renderNum sig.tp2) ∧
      ContainsStr fd.text (renderNum sig.tp3) ∧
      ContainsStr fd.text (renderNum sig.sl) := by
  have htxt : (mkForward (fillSig sig now)).text = buildText (fillSig sig now) := by
    simp [mkForward, fillSig, htext, resolveOr]
  refine ⟨mkForward (fillSig sig now), ?_, ?_, ?_, ?_, ?_, ?_, ?_, ?_, ?_⟩
  · rw [receive_signal_of_parse_ok st body now f sig hp]
  · simp [mkForward, fillSig, hchat, resolveOr]
  · rw [htxt]; exact buildText_has_ticker (fillSig sig now)
  · rw [htxt]; exact buildText_has_action (fillSig sig now)
  · rw [htxt]; exact buildText_has_price (fillSig sig now)
  · rw [htxt]; exact buildText_has_tp1 (fillSig sig now)
  · rw [htxt]; exact buildText_has_tp2 (fillSig sig now)
  · rw [htxt]; exact buildText_has_tp3 (fillSig sig now)
  · rw [htxt]; exact buildText_has_sl (fillSig sig now)

/-- C9, witness: the scenario entry body, which omits both routing
fields. -/
theorem C9_witness :
    ∃ fd : ForwardData, (receive_signal initState buyBody now0 .ok).2.2 = some fd ∧
      fd.chat_id = DEFAULT_CHAT_ID ∧
      ContainsStr fd.text buySig.ticker ∧
      ContainsStr fd.text buySig.action ∧
      ContainsStr fd.text (renderNum buySig.price) ∧
      ContainsStr fd.text (renderNum buySig.tp1) ∧
      ContainsStr fd.text (renderNum buySig.tp2) ∧
      ContainsStr fd.text (renderNum buySig.tp3) ∧
      ContainsStr fd.text (renderNum buySig.sl) :=
  C9_theorem initState buyBody now0 .ok buySig rfl rfl rfl (Or.inl rfl)

/-- C10: no webhook request — valid or invalid, whatever the action —
writes `wins`, `losses` or `win_rate`; their values after the request equal
their values before it. -/
theorem C10_theorem (st : AppState) (body : RawBody) (now : Now) (f : FwdOutcome) :
    (receive_signal st body now f).2.1.stats.wins = st.stats.wins ∧
    (receive_signal st body now f).2.1.stats.losses = st.stats.losses ∧
    (receive_signal st body now f).2.1.stats.win_rate = st.stats.win_rate := by
  cases h : parseBody body with
  | none => rw [receive_signal_of_parse_fail st body now f h]; exact ⟨rfl, rfl, rfl⟩
  | some sig => rw [receive_signal_of_parse_ok st body now f sig h]; exact ⟨rfl, rfl, rfl⟩

end Dashboard
